import Mathlib

/-!
Verification development for the rift VS Code extension's server-acquisition
logic (`editors/rift-vscode/src/activation/downloadBuild.ts`,
`editors/rift-vscode/src/activation/localBuild.ts`,
`editors/rift-vscode/src/lib/PubSub.ts`).

The TypeScript code is shallowly embedded: pure computations become Lean
functions; effectful collaborator calls (TCP probes, configuration reads,
filesystem stats, subprocess spawns, downloads) are modelled by an explicit
event trace produced alongside the result, with the environment's answers
(port reachability, download success, directory contents, ...) supplied by an
`Env` record of oracles.  The filesystem is a list of existing paths.
-/

namespace Rift

/-- `process.platform` values distinguished by the code. -/
inductive Platform
  | darwin
  | linux
  | win32
  | other (s : String)
deriving DecidableEq, Repr

/-- `process.arch`: the code only distinguishes `"arm64"` from the rest. -/
inductive Arch
  | arm64
  | otherArch
deriving DecidableEq, Repr

/-! ## Version comparator (`semver.coerce` / triple comparison)

`localBuild.ts` uses the npm `semver` package: `semver.coerce` extracts the
first `major[.minor[.patch]]` number group from a string (returning `null` --
modelled as `none` -- when no digits occur), and versions compare
lexicographically on the `(major, minor, patch)` triple. -/

/-- Decimal digits to a natural number (the digit run is nonempty in use). -/
def digitsToNat (cs : List Char) : Nat :=
  cs.foldl (fun acc c => acc * 10 + (c.toNat - ('0').toNat)) 0

/-- Model of `semver.coerce` on the character list of the input: scan for the
first digit, then read `major[.minor[.patch]]`, with missing components
defaulting to `0`.  No digit anywhere yields `none` (semver's `null`). -/
def coerceFirst : List Char → Option (Nat × Nat × Nat)
  | [] => none
  | c :: rest =>
    if c.isDigit then
      let maj := digitsToNat (List.takeWhile Char.isDigit (c :: rest))
      match List.dropWhile Char.isDigit (c :: rest) with
      | '.' :: r2 =>
        if List.takeWhile Char.isDigit r2 = [] then some (maj, 0, 0)
        else
          let mi := digitsToNat (List.takeWhile Char.isDigit r2)
          match List.dropWhile Char.isDigit r2 with
          | '.' :: r4 =>
            if List.takeWhile Char.isDigit r4 = [] then some (maj, mi, 0)
            else some (maj, mi, digitsToNat (List.takeWhile Char.isDigit r4))
          | _ => some (maj, mi, 0)
      | _ => some (maj, 0, 0)
    else coerceFirst rest

/-- `semver.coerce` on a string. -/
def semverCoerce (s : String) : Option (Nat × Nat × Nat) :=
  coerceFirst s.toList

/-- `semver` comparison of two parsed versions: `-1`, `0`, or `1`. -/
def compareV : Nat × Nat × Nat → Nat × Nat × Nat → Int
  | (a1, b1, c1), (a2, b2, c2) =>
    if a1 < a2 then -1 else if a2 < a1 then 1
    else if b1 < b2 then -1 else if b2 < b1 then 1
    else if c1 < c2 then -1 else if c2 < c1 then 1 else 0

/-- `semver.gte`: `compare` is not `-1`. -/
def versionGE (v w : Nat × Nat × Nat) : Bool :=
  compareV v w != -1

/-- `getLocalRiftVersion` (localBuild.ts:53-78): runs `<binPath> -v`; when the
captured `stdout` is nonempty it resolves `semver.coerce(stdout)` (which may
itself be `null`), and in every other case (exec error, stderr only, empty
output) it resolves `null`.  Modelled on the observed `stdout` text. -/
def getLocalRiftVersion (stdout : String) : Option (Nat × Nat × Nat) :=
  if stdout = "" then none else semverCoerce stdout

/-- Outcome of the version-upgrade comparison step. -/
inductive UpgradeOutcome
  | offered
  | notOffered
  | typeError
deriving DecidableEq, Repr

/-- The comparison step of `upgradeLocalBuildAsNeeded` (localBuild.ts:101-106):
`localRiftVersion.compare(pyprojectVersion)`.  When `localRiftVersion` is
`null` (unparseable local version) the member call throws a `TypeError`
(caught by the surrounding `.catch`, which only logs); likewise `compare`
throws when its argument is `null`.  Otherwise the upgrade is offered exactly
when the local version is strictly older. -/
def upgradeCheck (localV remoteV : Option (Nat × Nat × Nat)) : UpgradeOutcome :=
  match localV with
  | none => .typeError
  | some lv =>
    match remoteV with
    | none => .typeError
    | some rv => if compareV lv rv = -1 then .offered else .notOffered

/-! ## Interpreter probing (`autoBuild`, localBuild.ts:146-182) -/

/-- Result of running `<command> --version` for one candidate. -/
inductive ProbeResult
  | execFail
  | output (stdout : String)

/-- Match the version-group of the regex `/Python (\d+\.\d+)(?:\.\d+)?/` at
the head of the character list: the literal `"Python "` followed by a digit
run, a dot, and a digit run; the capture is `"<major>.<minor>"`. -/
def pythonVerAt (cs : List Char) : Option (List Char) :=
  if List.isPrefixOf ("Python ").toList cs then
    let rest := List.drop 7 cs
    let maj := List.takeWhile Char.isDigit rest
    if maj = [] then none
    else
      match List.dropWhile Char.isDigit rest with
      | '.' :: r2 =>
        let mi := List.takeWhile Char.isDigit r2
        if mi = [] then none else some (maj ++ '.' :: mi)
      | _ => none
  else none

/-- First match of the regex anywhere in the text. -/
def findPythonVer : List Char → Option (List Char)
  | [] => none
  | c :: rest =>
    match pythonVerAt (c :: rest) with
    | some v => some v
    | none => findPythonVer rest

/-- `stdout.match(/Python (\d+\.\d+)(?:\.\d+)?/)` -- the captured group. -/
def matchPythonVersion (stdout : String) : Option String :=
  (findPythonVer stdout.toList).map fun l => String.mk l

/-- One loop iteration of candidate probing (localBuild.ts:154-176): the
candidate qualifies when `exec` succeeds, the regex matches, and
`semver.gte(version || 3.10.0, 3.10.0)` holds on the coerced capture. -/
def candidateOk (probe : String → ProbeResult) (c : String) : Bool :=
  match probe c with
  | .execFail => false
  | .output stdout =>
    match matchPythonVersion stdout with
    | none => false
    | some cap =>
      let version := semverCoerce cap
      versionGE (version.getD (3, 10, 0)) (3, 10, 0)

/-- The probing loop: returns the selected command (if any) together with the
list of candidates actually evaluated, in order.  The loop `break`s on the
first qualifying candidate. -/
def autoBuildSelect (probe : String → ProbeResult) : List String → Option String × List String
  | [] => (none, [])
  | c :: rest =>
    if candidateOk probe c then (some c, [c])
    else
      let (r, t) := autoBuildSelect probe rest
      (r, c :: t)

/-- The fixed platform-ordered candidate list (localBuild.ts:147-150). -/
def pythonCommands (p : Platform) : List String :=
  match p with
  | .win32 => ["py -3.10", "py -3", "py"]
  | _ => ["python3.10", "python3", "python"]

/-- `path.join(os.homedir(), ".morph")`. -/
def morphDirOf (home : String) : String :=
  home ++ "/.morph"

/-- The `envPath` computed by `autoBuild` (localBuild.ts:189-192). -/
def buildEnvPath (p : Platform) (home : String) : String :=
  match p with
  | .win32 => morphDirOf home ++ "\\env\\Scripts\\"
  | _ => morphDirOf home ++ "/env/bin/"

/-- Errors `autoBuild` can throw. -/
inductive BuildError
  | runtimeNotFound
  | venvFailed
  | pipFailed
deriving DecidableEq, Repr

deriving instance DecidableEq for Except

/-- Environment oracles for one `autoBuild` run. -/
structure BuildEnv where
  platform : Platform
  home : String
  morphDirExists : Bool
  probe : String → ProbeResult
  venvOk : Bool
  pipOk : Bool

/-- Observable outcome of one `autoBuild` run: the returned value (the
function returns `undefined` on success), the candidates probed, whether the
app-data directory was created, and the configuration writes performed by the
function itself. -/
structure BuildResult where
  result : Except BuildError Unit
  probed : List String
  mkdirCalled : Bool
  configWrites : List (String × String)

/-- `autoBuild` (localBuild.ts:136-199): ensure `~/.morph`, probe the fixed
candidate list in order, fail fatally when none qualifies, create the venv,
pip-install the engine, and finally update the `riftPath` configuration to
`envPath + "rift"` itself, returning `undefined`. -/
def autoBuild (env : BuildEnv) : BuildResult :=
  let mk := !env.morphDirExists
  let (sel, probed) := autoBuildSelect env.probe (pythonCommands env.platform)
  match sel with
  | none => ⟨.error .runtimeNotFound, probed, mk, []⟩
  | some _ =>
    if !env.venvOk then ⟨.error .venvFailed, probed, mk, []⟩
    else if !env.pipOk then ⟨.error .pipFailed, probed, mk, []⟩
    else ⟨.ok (), probed, mk, [("riftPath", buildEnvPath env.platform env.home ++ "rift")]⟩

/-! ## Pub/sub registry (`lib/PubSub.ts`) -/

/-- The module-level `registry` object: a partial map from keys to handlers.
Handlers are modelled abstractly as functions from an argument list to a
result, mirroring `(...args) => void`. -/
def Registry (α β : Type) := String → Option (List α → β)

/-- `sub(key, fn)` (PubSub.ts:12-19): delete any existing entry for the key,
then store `fn` -- net effect, the slot is overwritten. -/
def sub {α β : Type} (r : Registry α β) (key : String) (fn : List α → β) : Registry α β :=
  fun k => if k = key then some fn else r k

/-- `pub(key, ...args)` (PubSub.ts:3-10): look up the handler; if absent,
throw `"published to an unawaited key"`; otherwise call it with the given
arguments and return its value. -/
def pub {α β : Type} (r : Registry α β) (key : String) (args : List α) : Except String β :=
  match r key with
  | some fn => .ok (fn args)
  | none => .error "published to an unawaited key"

/-! ## `downloadFile` (downloadBuild.ts:70-94) -/

/-- The parts of the `node-fetch` response the function inspects: success
flag, body (a stream, modelled as its list of chunk byte-counts; `none` when
the response has no body), and the `content-length` header. -/
structure HttpResponse where
  ok : Bool
  body : Option (List Nat)
  contentLength : Option Nat
deriving DecidableEq, Repr

/-- Observable outcome of `downloadFile`: returned boolean, whether the
destination file was written, whether the parent directory was created, and
the sequence of `progress.report` increments. -/
structure DownloadOutcome where
  success : Bool
  wroteFile : Bool
  madeParentDir : Bool
  progressIncrements : List ℚ
deriving DecidableEq, Repr

/-- `downloadFile`: on `!res.ok || !res.body` return `false` having touched
nothing; otherwise create the parent directory, stream the body to the
destination, reporting `(chunk / content-length) * 100` per chunk when the
`content-length` header is present and nothing otherwise, and return
`true`. -/
def downloadFile (res : HttpResponse) : DownloadOutcome :=
  if !res.ok || res.body.isNone then
    { success := false, wroteFile := false, madeParentDir := false, progressIncrements := [] }
  else
    let chunks := res.body.getD []
    { success := true, wroteFile := true, madeParentDir := true,
      progressIncrements :=
        match res.contentLength with
        | some total => chunks.map fun c => ((c : ℚ) / (total : ℚ)) * 100
        | none => [] }

/-! ## Install-target computation (`getDefaultInstallProps`, downloadBuild.ts:228-257) -/

/-- The `osName` computation: platform tag, with `-arm64` appended for Apple
silicon; `none` models the `throw Error("bad os.")` for unknown platforms. -/
def osNameOf (platform : Platform) (arch : Arch) : Option String :=
  match platform with
  | .darwin => some (if arch = Arch.arm64 then "macOS-arm64" else "macOS")
  | .linux => some "Linux"
  | .win32 => some "Windows"
  | .other _ => none

/-- Errors thrown on the acquisition paths of `downloadBuild.ts`. -/
inductive RError
  | badOS
  | unsupportedPlatform (s : String)
  | downloadFailed (bundleID : String)
  | couldNotStart
deriving DecidableEq, Repr

/-- The record returned by `getDefaultInstallProps`. -/
structure InstallProps where
  version : String
  bundleID : String
  bundleLocation : String
  zipLocation : String
  binLocation : String
deriving DecidableEq, Repr

/-- The executable name: `platformSpecific({windows: "core.exe"}) ?? "core"`. -/
def coreNameOf (platform : Platform) : String :=
  match platform with
  | .win32 => "core.exe"
  | _ => "core"

/-- `getDefaultInstallProps`: bundle identifier `"rift-" + osName + "-v" +
version`, install directory `<morphDir>/<bundleID>`, archive
`<bundleLocation>.zip`, and executable `core` (`core.exe` on Windows) inside
the install directory.  The extension version and home directory are inputs
(read from the ambient process in the source). -/
def getDefaultInstallProps (home : String) (platform : Platform) (arch : Arch)
    (version : String) : Except RError InstallProps :=
  match osNameOf platform arch with
  | none => .error .badOS
  | some osName =>
    let bundleID := "rift-" ++ osName ++ "-v" ++ version
    let bundleLocation := morphDirOf home ++ "/" ++ bundleID
    let zipLocation := bundleLocation ++ ".zip"
    .ok { version := version, bundleID := bundleID, bundleLocation := bundleLocation,
          zipLocation := zipLocation,
          binLocation := bundleLocation ++ "/" ++ coreNameOf platform }

/-- The release-archive URL (downloadBuild.ts:159). -/
def riftReleaseURL (props : InstallProps) : String :=
  "https://github.com/morph-labs/rift/releases/download/v" ++ props.version ++ "/"
    ++ props.bundleID ++ ".zip"

/-! ## Server acquisition orchestrator (downloadBuild.ts:96-226)

Collaborator calls are recorded as events.  The interpreter takes the
filesystem (list of existing paths) in and returns the result, the updated
filesystem and the list of events produced, in order. -/

/-- One collaborator call made during resolution. -/
inductive Event
  | probePort (port : Nat) (used : Bool)
  | waitUntil (port : Nat) (errored : Bool)
  | readConfig (key : String)
  | fsStat (p : String)
  | rmFile (p : String) (ok : Bool)
  | download (url : String) (dest : String) (ok : Bool)
  | extract (zip : String) (dest : String)
  | readDir (p : String)
  | spawn (cmd : String) (cwd : String)
deriving DecidableEq, Repr

/-- The resolved `ServerOptions`: either a TCP stream to an already-running
service (`tcpServerOptions`) or an `Executable` launch descriptor. -/
inductive ServerOptionsR
  | network (host : String) (port : Nat)
  | executable (command : String) (args : List String) (transportPort : Nat)
deriving DecidableEq, Repr

/-- Oracles answering the orchestrator's collaborator calls for one
resolution attempt.  `customRiftPath = none` models an unset (or empty, hence
falsy) `rift.riftPath` setting.  `waitPolls` lists, per iteration of
`waitForPort`, the `tcpPortUsed.check` answer and whether the subsequent
`waitUntilUsed` threw (a logged-and-ignored transient error). -/
structure Env where
  home : String
  platform : Platform
  arch : Arch
  version : String
  portInUse : Bool
  customRiftPath : Option String
  autostart : Bool
  downloadOk : Bool
  archiveHasCore : Bool
  morphEntries : List String
  waitPolls : List (Bool × Bool)

/-- `tryResolveServerOptions` (downloadBuild.ts:106-141): probe the port and
attach over TCP if live; otherwise read `rift.riftPath`, compute the default
install props, prefer an existing custom binary over the installed bundle
binary, and -- only when some binary was found -- read `rift.autostart` and
return an `Executable` (`--port <N>`, socket transport) when it is enabled.
Returns `none` (`undefined`) when nothing usable was found or autostart is
off. -/
def tryResolveServerOptions (env : Env) (port : Nat) (fs : List String) :
    Except RError (Option ServerOptionsR) × List String × List Event :=
  if env.portInUse then
    (.ok (some (.network "127.0.0.1" port)), fs, [.probePort port true])
  else
    let t0 : List Event := [.probePort port false, .readConfig "riftPath"]
    match getDefaultInstallProps env.home env.platform env.arch env.version with
    | .error e => (.error e, fs, t0)
    | .ok props =>
      let ct : Bool × List Event :=
        match env.customRiftPath with
        | none => (false, t0)
        | some p => (fs.contains p, t0 ++ [.fsStat p])
      let (customExists, t1) := ct
      if customExists then
        let t2 := t1 ++ [.readConfig "autostart"]
        if env.autostart then
          (.ok (some (.executable (env.customRiftPath.getD "") ["--port", toString port] port)),
            fs, t2)
        else (.ok none, fs, t2)
      else
        let t2 := t1 ++ [.fsStat props.binLocation]
        if fs.contains props.binLocation then
          let t3 := t2 ++ [.readConfig "autostart"]
          if env.autostart then
            (.ok (some (.executable props.binLocation ["--port", toString port] port)), fs, t3)
          else (.ok none, fs, t3)
        else (.ok none, fs, t2)

/-- `waitForPort` (downloadBuild.ts:217-226): loop `tcpPortUsed.check`; on
`false`, `waitUntilUsed` (any thrown error is logged and the loop
continues).  Returns the number of failed checks before success, or `none`
when the modelled oracle window ends with the port still unreachable, plus
the probe events. -/
def waitForPortLoop (port : Nat) : List (Bool × Bool) → Option Nat × List Event
  | [] => (none, [])
  | (used, err) :: rest =>
    if used then (some 0, [.probePort port true])
    else
      let (r, evs) := waitForPortLoop port rest
      (r.map (· + 1), .probePort port false :: .waitUntil port err :: evs)

/-- The stale-bundle pruning filter (downloadBuild.ts:174-181): among the
entries of the app-data directory, those differing from the current bundle
identifier whose name starts with `"rift-"`. -/
def pruneTargets (entries : List String) (bundleID : String) : List String :=
  entries.filter fun e => (e != bundleID) && e.startsWith "rift-"

/-- The fire-and-forget removal attempts of the pruning pass, as events.  The
`rm` promises are neither awaited nor error-handled by the source, so their
outcomes (`ok` flags, decided by `rmFails`) feed back into nothing. -/
def pruneEvents (home : String) (entries : List String) (bundleID : String)
    (rmFails : List String) : List Event :=
  (pruneTargets entries bundleID).map fun e =>
    .rmFile (morphDirOf home ++ "/" ++ e) (!(rmFails.contains (morphDirOf home ++ "/" ++ e)))

/-- The `platformSpecific` chmod step after extraction (downloadBuild.ts:184-199):
`chmod +x core` in the bundle directory on macOS and Linux, nothing on
Windows, and a thrown `Unsupported Platform` otherwise. -/
def chmodPhase (p : Platform) (bundleLocation : String) : Except RError (List Event) :=
  match p with
  | .darwin => .ok [.spawn "chmod +x core" bundleLocation]
  | .linux => .ok [.spawn "chmod +x core" bundleLocation]
  | .win32 => .ok []
  | .other s => .error (.unsupportedPlatform s)

/-- Insert a path into the modelled filesystem. -/
def insertPath (fs : List String) (p : String) : List String :=
  if fs.contains p then fs else p :: fs

/-- Overall outcome of `forceResolveServerOptions`: a resolved endpoint, a
thrown error, or `pending` when the (autostart-off) wait loop is still
polling at the end of the modelled oracle window. -/
inductive Res
  | ok (o : ServerOptionsR)
  | err (e : RError)
  | pending
deriving DecidableEq, Repr

/-- The re-check ending the autostart branch: `const started = await
tryResolveServerOptions(...)` followed by `throw Error("Could not download
and start prebuilt server.")` when still unresolved
(downloadBuild.ts:201-214). -/
def recheckPhase (env : Env) (port : Nat) (fs : List String) (t : List Event) :
    Res × List String × List Event :=
  match tryResolveServerOptions env port fs with
  | (.error e, fs', t') => (.err e, fs', t ++ t')
  | (.ok (some o), fs', t') => (.ok o, fs', t ++ t')
  | (.ok none, fs', t') => (.err .couldNotStart, fs', t ++ t')

/-- The autostart branch of `forceResolveServerOptions`
(downloadBuild.ts:152-204): if the bundle directory is absent, remove any
stale archive, download the release zip (throwing `downloadFailed` on
failure), extract it into the bundle directory (`strip: 1`; the directory --
and, when the archive contains it, the `core` executable -- now exist), kick
off the asynchronous prune pass, and run the chmod fix; in every case
re-invoke `tryResolveServerOptions` once via `recheckPhase`. -/
def installPhase (env : Env) (rmFails : List String) (props : InstallProps) (port : Nat)
    (fs : List String) : Res × List String × List Event :=
  let t0 : List Event := [.fsStat props.bundleLocation]
  if fs.contains props.bundleLocation then
    recheckPhase env port fs t0
  else
    let fs1 := fs.filter fun p => p != props.zipLocation
    let t1 := t0 ++ [.rmFile props.zipLocation (!(rmFails.contains props.zipLocation))]
    let t2 := t1 ++ [.download (riftReleaseURL props) props.zipLocation env.downloadOk]
    if env.downloadOk then
      let fs2 := insertPath (insertPath fs1 props.zipLocation) props.bundleLocation
      let fs3 := if env.archiveHasCore then insertPath fs2 props.binLocation else fs2
      let t3 := t2 ++ [.extract props.zipLocation props.bundleLocation,
        .readDir (morphDirOf env.home)]
      let t4 := t3 ++ pruneEvents env.home env.morphEntries props.bundleID rmFails
      match chmodPhase env.platform props.bundleLocation with
      | .error e => (.err e, fs3, t4)
      | .ok chmodEvs => recheckPhase env port fs3 (t4 ++ chmodEvs)
    else
      (.err (.downloadFailed props.bundleID), fs1, t2)

/-- `forceResolveServerOptions` (downloadBuild.ts:143-215): first
`tryResolveServerOptions`; if unresolved, read `rift.autostart`; with
autostart on, run the download/install phase; with autostart off, report and
block in `waitForPort`, returning a TCP endpoint once the port is
reachable. -/
def forceResolveServerOptions (env : Env) (rmFails : List String) (port : Nat)
    (fs : List String) : Res × List String × List Event :=
  match tryResolveServerOptions env port fs with
  | (.error e, fs', t) => (.err e, fs', t)
  | (.ok (some o), fs', t) => (.ok o, fs', t)
  | (.ok none, fs', t) =>
    let t := t ++ [.readConfig "autostart"]
    if env.autostart then
      match getDefaultInstallProps env.home env.platform env.arch env.version with
      | .error e => (.err e, fs', t)
      | .ok props =>
        let (r, fs'', t') := installPhase env rmFails props port fs'
        (r, fs'', t ++ t')
    else
      let (r, wEvs) := waitForPortLoop port env.waitPolls
      match r with
      | some _ => (.ok (.network "127.0.0.1" port), fs', t ++ wEvs)
      | none => (.pending, fs', t ++ wEvs)

/-! Event classifiers used to state frame conditions. -/

/-- Is the event a download? -/
def Event.isDownload : Event → Bool
  | .download .. => true
  | _ => false

/-- Is the event an archive extraction? -/
def Event.isExtract : Event → Bool
  | .extract .. => true
  | _ => false

/-- Is the event a TCP liveness probe (`tcpPortUsed.check`)? -/
def Event.isProbe : Event → Bool
  | .probePort .. => true
  | _ => false

/-- Is the event a subprocess spawn? -/
def Event.isSpawn : Event → Bool
  | .spawn .. => true
  | _ => false

/-- Is the event a configuration read? -/
def Event.isConfigRead : Event → Bool
  | .readConfig _ => true
  | _ => false

/-- Does the event touch the filesystem (stat, removal, download-to-disk,
extraction, directory listing)? -/
def Event.isFsOp : Event → Bool
  | .fsStat _ => true
  | .rmFile .. => true
  | .download .. => true
  | .extract .. => true
  | .readDir _ => true
  | _ => false

/-- Is the event a removal of exactly the path `p`? -/
def Event.isRmOf (p : String) : Event → Bool
  | .rmFile q _ => q == p
  | _ => false

/-! ## Generic string helpers -/

/-- Two strings that disagree within the first `m` characters remain distinct
under arbitrary suffixes. -/
theorem strMismatch (A B : String) (m : Nat) (hA : m ≤ A.data.length)
    (hB : m ≤ B.data.length) (hne : A.data.take m ≠ B.data.take m)
    (x y : String) : A ++ x ≠ B ++ y := by
  intro h
  apply hne
  have hd : A.data ++ x.data = B.data ++ y.data := by
    have h' := congrArg String.data h
    simpa [String.data_append] using h'
  calc A.data.take m = (A.data ++ x.data).take m :=
        (List.take_append_of_le_length hA).symm
    _ = (B.data ++ y.data).take m := by rw [hd]
    _ = B.data.take m := List.take_append_of_le_length hB

/-- Left cancellation for string append. -/
theorem strCancel (A x y : String) (h : A ++ x = A ++ y) : x = y := by
  apply String.ext
  have hd := congrArg String.data h
  simp only [String.data_append] at hd
  exact List.append_cancel_left hd

/-! ## Supporting lemmas about the version comparator and probing loop -/

/-- Text without a single digit coerces to semver's `null`. -/
theorem coerceFirst_none (l : List Char) (h : ∀ c ∈ l, c.isDigit = false) :
    coerceFirst l = none := by
  induction l with
  | nil => rfl
  | cons c rest ih =>
    rw [coerceFirst, if_neg]
    · exact ih fun x hx => h x (List.mem_cons_of_mem _ hx)
    · simp [h c (List.mem_cons_self _ _)]

/-- The probing loop returns the first qualifying candidate and evaluates
exactly the candidates up to and including it. -/
theorem autoBuildSelect_eq (probe : String → ProbeResult) (l : List String) :
    autoBuildSelect probe l =
      (l.find? (candidateOk probe),
        l.takeWhile (fun c => !candidateOk probe c) ++
          (match l.find? (candidateOk probe) with | some c => [c] | none => [])) := by
  induction l with
  | nil => rfl
  | cons c rest ih =>
    by_cases h : candidateOk probe c
    · simp [autoBuildSelect, h, List.find?_cons_of_pos, List.takeWhile_cons_of_pos]
    · simp only [autoBuildSelect, h, if_false, Bool.false_eq_true, ih]
      simp [List.find?_cons_of_neg _ h, List.takeWhile_cons_of_neg, h]

/-- C6 helper: a captured `"3.10"` qualifies (3.10.0 meets `>= 3.10.0`). -/
theorem candidateOk_of_match_310 (probe : String → ProbeResult) (c stdout : String)
    (h1 : probe c = .output stdout) (h2 : matchPythonVersion stdout = some "3.10") :
    candidateOk probe c = true := by
  simp only [candidateOk, h1, h2]
  decide

/-! ## Supporting lemmas about the orchestrator -/

/-- `tryResolveServerOptions` with the port already live: one probe, nothing
else. -/
theorem tryResolve_running (env : Env) (port : Nat) (fs : List String)
    (h : env.portInUse = true) :
    tryResolveServerOptions env port fs =
      (.ok (some (.network "127.0.0.1" port)), fs, [.probePort port true]) := by
  simp [tryResolveServerOptions, h]

/-- The stat events of the custom-path check (none when the setting is
unset). -/
def custStatEvents (env : Env) : List Event :=
  match env.customRiftPath with
  | none => []
  | some p => [.fsStat p]

/-- `tryResolveServerOptions` when the port is down and no binary exists:
resolves nothing, after one probe, one config read and the stat checks. -/
theorem tryResolve_none (env : Env) (port : Nat) (fs : List String) (props : InstallProps)
    (h1 : env.portInUse = false)
    (hp : getDefaultInstallProps env.home env.platform env.arch env.version = .ok props)
    (hc : ∀ p, env.customRiftPath = some p → fs.contains p = false)
    (hb : fs.contains props.binLocation = false) :
    tryResolveServerOptions env port fs =
      (.ok none, fs,
        [.probePort port false, .readConfig "riftPath"] ++ custStatEvents env ++
          [.fsStat props.binLocation]) := by
  have hb' : props.binLocation ∉ fs := by simpa using hb
  rcases hcp : env.customRiftPath with _ | p
  · simp [tryResolveServerOptions, custStatEvents, h1, hp, hcp, hb']
  · have hc' : p ∉ fs := by simpa using hc p hcp
    simp [tryResolveServerOptions, custStatEvents, h1, hp, hcp, hb', hc']

/-- Frame facts about `tryResolveServerOptions`: it leaves the filesystem
unchanged, probes exactly once, and never downloads, extracts, removes a
file, or spawns a subprocess. -/
theorem tryResolve_frame (env : Env) (port : Nat) (fs : List String) :
    (tryResolveServerOptions env port fs).2.1 = fs ∧
    ((tryResolveServerOptions env port fs).2.2.filter Event.isProbe).length = 1 ∧
    (tryResolveServerOptions env port fs).2.2.filter Event.isDownload = [] ∧
    (tryResolveServerOptions env port fs).2.2.filter Event.isExtract = [] ∧
    (tryResolveServerOptions env port fs).2.2.filter Event.isSpawn = [] ∧
    (∀ q b, Event.rmFile q b ∉ (tryResolveServerOptions env port fs).2.2) := by
  by_cases h : env.portInUse
  · simp [tryResolveServerOptions, h, Event.isProbe, Event.isDownload, Event.isExtract,
      Event.isSpawn]
  · rcases hp : getDefaultInstallProps env.home env.platform env.arch env.version with e | props
    · simp [tryResolveServerOptions, h, hp, Event.isProbe, Event.isDownload, Event.isExtract,
        Event.isSpawn]
    · rcases hcp : env.customRiftPath with _ | p
      · by_cases hb : props.binLocation ∈ fs <;> by_cases ha : env.autostart <;>
          simp [tryResolveServerOptions, h, hp, hcp, hb, ha, Event.isProbe, Event.isDownload,
            Event.isExtract, Event.isSpawn]
      · by_cases hcc : p ∈ fs <;> by_cases hb : props.binLocation ∈ fs <;>
          by_cases ha : env.autostart <;>
          simp [tryResolveServerOptions, h, hp, hcp, hcc, hb, ha, Event.isProbe,
            Event.isDownload, Event.isExtract, Event.isSpawn]

/-- The wait loop terminates as soon as some poll reports the port in use. -/
theorem waitLoop_reaches (port : Nat) (l : List (Bool × Bool))
    (h : true ∈ l.map Prod.fst) : ∃ n, (waitForPortLoop port l).1 = some n := by
  induction l with
  | nil => simp at h
  | cons x rest ih =>
    rcases x with ⟨used, err⟩
    by_cases hu : used = true
    · subst hu; exact ⟨0, by simp [waitForPortLoop]⟩
    · have hu' : used = false := by simpa using hu
      subst hu'
      have hmem : true ∈ rest.map Prod.fst := by simpa using h
      obtain ⟨n, hn⟩ := ih hmem
      exact ⟨n + 1, by simp [waitForPortLoop, hn]⟩

/-- The wait loop is still pending when every poll reports the port down. -/
theorem waitLoop_pending (port : Nat) (l : List (Bool × Bool))
    (h : true ∉ l.map Prod.fst) : (waitForPortLoop port l).1 = none := by
  induction l with
  | nil => rfl
  | cons x rest ih =>
    rcases x with ⟨used, err⟩
    have hu : used = false := by
      rcases used with _ | _
      · rfl
      · exact absurd (by simp) h
    subst hu
    have hmem : true ∉ rest.map Prod.fst := fun hm => h (by simpa using hm)
    simp [waitForPortLoop, ih hmem]

/-- The wait loop's verdict depends only on the poll answers, not on whether
individual `waitUntilUsed` calls threw (those errors are logged and
swallowed). -/
theorem waitLoop_fst_congr (port : Nat) (l₁ l₂ : List (Bool × Bool))
    (h : l₁.map Prod.fst = l₂.map Prod.fst) :
    (waitForPortLoop port l₁).1 = (waitForPortLoop port l₂).1 := by
  induction l₁ generalizing l₂ with
  | nil =>
    rcases l₂ with _ | ⟨y, rest₂⟩
    · rfl
    · simp at h
  | cons x rest ih =>
    rcases l₂ with _ | ⟨y, rest₂⟩
    · simp at h
    · rcases x with ⟨u, e⟩
      rcases y with ⟨u2, e2⟩
      simp only [List.map_cons, List.cons.injEq] at h
      obtain ⟨hu, hr⟩ := h
      rw [show u = u2 from hu]
      by_cases hu' : u2 = true <;> simp [waitForPortLoop, hu', ih rest₂ hr]

/-- The wait loop emits only probe and wait events. -/
theorem waitLoop_frame (port : Nat) (l : List (Bool × Bool)) :
    (waitForPortLoop port l).2.filter Event.isSpawn = [] ∧
    (waitForPortLoop port l).2.filter Event.isDownload = [] ∧
    (waitForPortLoop port l).2.filter Event.isExtract = [] ∧
    (∀ q b, Event.rmFile q b ∉ (waitForPortLoop port l).2) := by
  induction l with
  | nil => simp [waitForPortLoop]
  | cons x rest ih =>
    rcases x with ⟨used, err⟩
    by_cases hu : used = true <;>
      simp [waitForPortLoop, hu, Event.isSpawn, Event.isDownload, Event.isExtract, ih]

/-- `tryResolveServerOptions` resolves nothing when autostart is off (and the
port is down, on a supported platform). -/
theorem tryResolve_noauto (env : Env) (port : Nat) (fs : List String) (props : InstallProps)
    (h1 : env.portInUse = false) (ha : env.autostart = false)
    (hp : getDefaultInstallProps env.home env.platform env.arch env.version = .ok props) :
    (tryResolveServerOptions env port fs).1 = .ok none := by
  rcases hcp : env.customRiftPath with _ | p
  · by_cases hb : props.binLocation ∈ fs <;>
      simp [tryResolveServerOptions, h1, hp, hcp, hb, ha]
  · by_cases hcc : p ∈ fs <;> by_cases hb : props.binLocation ∈ fs <;>
      simp [tryResolveServerOptions, h1, hp, hcp, hcc, hb, ha]

/-- A successful install-props computation implies a supported platform. -/
theorem getDefault_ok_platform (home : String) (p : Platform) (a : Arch) (v : String)
    (pr : InstallProps) (h : getDefaultInstallProps home p a v = .ok pr) :
    p = Platform.darwin ∨ p = Platform.linux ∨ p = Platform.win32 := by
  cases p <;> simp [getDefaultInstallProps, osNameOf] at h <;> simp

/-- Field relations of a successful install-props computation. -/
theorem getDefault_fields (home : String) (p : Platform) (a : Arch) (v : String)
    (pr : InstallProps) (h : getDefaultInstallProps home p a v = .ok pr) :
    pr.zipLocation = pr.bundleLocation ++ ".zip" ∧
    pr.bundleLocation = morphDirOf home ++ "/" ++ pr.bundleID := by
  simp only [getDefaultInstallProps] at h
  rcases hos : osNameOf p a with _ | os
  · rw [hos] at h; simp at h
  · rw [hos] at h
    simp only [Except.ok.injEq] at h
    subst h
    exact ⟨rfl, rfl⟩

/-- Appending `".zip"` changes a string. -/
theorem zip_ne (s : String) : s ++ ".zip" ≠ s := by
  intro h
  have hl := congrArg String.length h
  have h4 : (".zip" : String).length = 4 := rfl
  rw [String.length_append, h4] at hl
  omega

/-- Every pruning event removes `<morphDir>/<entry>` for some pruning-target
entry. -/
theorem pruneEvents_mem (home : String) (entries : List String) (bid : String)
    (rmF : List String) (ev : Event) (h : ev ∈ pruneEvents home entries bid rmF) :
    ∃ en, en ∈ pruneTargets entries bid ∧
      ev = Event.rmFile (morphDirOf home ++ "/" ++ en)
        (!(rmF.contains (morphDirOf home ++ "/" ++ en))) := by
  simp only [pruneEvents, List.mem_map] at h
  obtain ⟨en, hmem, rfl⟩ := h
  exact ⟨en, hmem, rfl⟩

/-- Pruning targets never include the current bundle identifier, and consist
of differing rift-prefixed sibling entries. -/
theorem pruneTargets_spec (entries : List String) (bid : String) :
    bid ∉ pruneTargets entries bid ∧
    ∀ e ∈ pruneTargets entries bid,
      e ∈ entries ∧ e ≠ bid ∧ e.startsWith "rift-" = true := by
  constructor
  · intro h
    have h2 := (List.mem_filter.mp h).2
    simp at h2
  · intro e he
    have h1 := (List.mem_filter.mp he).1
    have h2 := (List.mem_filter.mp he).2
    simp only [Bool.and_eq_true, bne_iff_ne, ne_eq] at h2
    exact ⟨h1, h2.1, h2.2⟩

/-- Pruning events are removals only. -/
theorem pruneEvents_frame (home : String) (entries : List String) (bid : String)
    (rmF : List String) :
    (pruneEvents home entries bid rmF).filter Event.isDownload = [] ∧
    (pruneEvents home entries bid rmF).filter Event.isExtract = [] ∧
    (pruneEvents home entries bid rmF).filter Event.isProbe = [] ∧
    (pruneEvents home entries bid rmF).filter Event.isSpawn = [] := by
  refine ⟨?_, ?_, ?_, ?_⟩ <;>
  · rw [List.filter_eq_nil_iff]
    intro e he
    obtain ⟨en, _, rfl⟩ := pruneEvents_mem home entries bid rmF e he
    simp [Event.isDownload, Event.isExtract, Event.isProbe, Event.isSpawn]

/-- The chmod step emits no download, extraction, probe, or removal. -/
theorem chmodPhase_frame (p : Platform) (loc : String) (evs : List Event)
    (h : chmodPhase p loc = .ok evs) :
    evs.filter Event.isDownload = [] ∧ evs.filter Event.isExtract = [] ∧
    evs.filter Event.isProbe = [] ∧ (∀ q b, Event.rmFile q b ∉ evs) := by
  cases p <;> simp [chmodPhase] at h <;> try subst h
  all_goals simp [Event.isDownload, Event.isExtract, Event.isProbe]

/-- `recheckPhase`: its verdict and filesystem ignore the accumulated trace,
which it extends by the re-check's own events. -/
theorem recheckPhase_eq (env : Env) (port : Nat) (fs : List String) (t : List Event) :
    (recheckPhase env port fs t).1 = (recheckPhase env port fs []).1 ∧
    (recheckPhase env port fs t).2.1 = (recheckPhase env port fs []).2.1 ∧
    (recheckPhase env port fs t).2.2 = t ++ (tryResolveServerOptions env port fs).2.2 := by
  unfold recheckPhase
  rcases htr : tryResolveServerOptions env port fs with ⟨r, fs', t'⟩
  rcases r with e | o
  · simp
  · rcases o with _ | o <;> simp

/-- The verdict and resulting filesystem of `installPhase` do not depend on
which removals fail: removal outcomes feed back into nothing. -/
theorem installPhase_rm_invariant (env : Env) (rmF₁ rmF₂ : List String)
    (props : InstallProps) (port : Nat) (fs : List String) :
    (installPhase env rmF₁ props port fs).1 = (installPhase env rmF₂ props port fs).1 ∧
    (installPhase env rmF₁ props port fs).2.1 =
      (installPhase env rmF₂ props port fs).2.1 := by
  unfold installPhase
  by_cases hb : props.bundleLocation ∈ fs
  · simp [hb]
  · have hb' : fs.contains props.bundleLocation = false := by simp [hb]
    simp only [hb', Bool.false_eq_true, if_false]
    by_cases hd : env.downloadOk
    · simp only [hd, if_true]
      rcases hc : chmodPhase env.platform props.bundleLocation with e | evs
      · exact ⟨rfl, rfl⟩
      · exact ⟨((recheckPhase_eq _ _ _ _).1).trans ((recheckPhase_eq _ _ _ _).1).symm,
          ((recheckPhase_eq _ _ _ _).2.1).trans ((recheckPhase_eq _ _ _ _).2.1).symm⟩
    · simp [hd]

/-- The install phase never removes the current bundle directory: the only
removals it attempts are the stale archive and the pruning targets, none of
which is the bundle directory. -/
theorem installPhase_no_rm_bundle (env : Env) (rmF : List String) (props : InstallProps)
    (port : Nat) (fs : List String) (b : Bool)
    (hzip : props.zipLocation = props.bundleLocation ++ ".zip")
    (hloc : props.bundleLocation = morphDirOf env.home ++ "/" ++ props.bundleID) :
    Event.rmFile props.bundleLocation b ∉ (installPhase env rmF props port fs).2.2 := by
  have hzipne : props.zipLocation ≠ props.bundleLocation := by
    rw [hzip]; exact zip_ne _
  have hprune : ∀ b', Event.rmFile props.bundleLocation b' ∉
      pruneEvents env.home env.morphEntries props.bundleID rmF := by
    intro b' hmem
    obtain ⟨en, hmem', heq⟩ := pruneEvents_mem _ _ _ _ _ hmem
    have hbid : props.bundleLocation = morphDirOf env.home ++ "/" ++ en := by
      simp only [Event.rmFile.injEq] at heq
      exact heq.1
    have hen : props.bundleID = en :=
      strCancel (morphDirOf env.home ++ "/") _ _ (hloc.symm.trans hbid)
    exact ((pruneTargets_spec env.morphEntries props.bundleID).2 en hmem').2.1 hen.symm
  unfold installPhase
  by_cases hb : props.bundleLocation ∈ fs
  · have hb' : fs.contains props.bundleLocation = true := by simp [hb]
    simp only [hb', if_true]
    rw [(recheckPhase_eq env port fs _).2.2]
    intro hmem
    rcases List.mem_append.mp hmem with h | h
    · simp at h
    · exact (tryResolve_frame env port fs).2.2.2.2.2 _ _ h
  · have hb' : fs.contains props.bundleLocation = false := by simp [hb]
    simp only [hb', Bool.false_eq_true, if_false]
    by_cases hd : env.downloadOk
    · simp only [hd, if_true]
      rcases hc : chmodPhase env.platform props.bundleLocation with e | evs
      · intro hmem
        rcases List.mem_append.mp hmem with h | h
        · rcases List.mem_append.mp h with h | h
          · rcases List.mem_append.mp h with h | h
            · rcases List.mem_append.mp h with h | h
              · simp at h
              · simp only [List.mem_singleton, Event.rmFile.injEq] at h
                exact hzipne h.1.symm
            · simp at h
          · simp at h
        · exact hprune _ h
      · rw [(recheckPhase_eq env port _ _).2.2]
        intro hmem
        rcases List.mem_append.mp hmem with h | h
        · rcases List.mem_append.mp h with h | h
          · rcases List.mem_append.mp h with h | h
            · rcases List.mem_append.mp h with h | h
              · rcases List.mem_append.mp h with h | h
                · rcases List.mem_append.mp h with h | h
                  · simp at h
                  · simp only [List.mem_singleton, Event.rmFile.injEq] at h
                    exact hzipne h.1.symm
                · simp at h
              · simp at h
            · exact hprune _ h
          · exact (chmodPhase_frame env.platform props.bundleLocation evs hc).2.2.2 _ _ h
        · exact (tryResolve_frame env port _).2.2.2.2.2 _ _ h
    · simp only [hd, Bool.false_eq_true, if_false]
      intro hmem
      rcases List.mem_append.mp hmem with h | h
      · rcases List.mem_append.mp h with h | h
        · simp at h
        · simp only [List.mem_singleton, Event.rmFile.injEq] at h
          exact hzipne h.1.symm
      · simp at h

/-! ## Claim theorems -/

/-- C1: when the liveness probe already succeeds, `tryResolveServerOptions`
returns a Network (TCP socket) endpoint immediately, and so does
`forceResolveServerOptions`, with a trace consisting of the single probe --
hence zero configuration reads, zero filesystem operations, and zero
subprocess invocations. -/
theorem C1_live_port_short_circuit (env : Env) (rmFails : List String) (port : Nat)
    (fs : List String) (h : env.portInUse = true) :
    tryResolveServerOptions env port fs =
      (.ok (some (.network "127.0.0.1" port)), fs, [.probePort port true]) ∧
    forceResolveServerOptions env rmFails port fs =
      (.ok (.network "127.0.0.1" port), fs, [.probePort port true]) ∧
    (forceResolveServerOptions env rmFails port fs).2.2.filter Event.isConfigRead = [] ∧
    (forceResolveServerOptions env rmFails port fs).2.2.filter Event.isFsOp = [] ∧
    (forceResolveServerOptions env rmFails port fs).2.2.filter Event.isSpawn = [] := by
  have ht := tryResolve_running env port fs h
  have hf : forceResolveServerOptions env rmFails port fs =
      (.ok (.network "127.0.0.1" port), fs, [.probePort port true]) := by
    unfold forceResolveServerOptions
    rw [ht]
  refine ⟨ht, hf, ?_, ?_, ?_⟩ <;> rw [hf] <;> rfl

/-- Shared concrete environment (Linux, x64, version 1.0.0, port down, no
custom path, empty filesystem). -/
def cEnvBase : Env :=
  { home := "/h", platform := .linux, arch := .otherArch, version := "1.0.0",
    portInUse := false, customRiftPath := none, autostart := true, downloadOk := false,
    archiveHasCore := false, morphEntries := [], waitPolls := [] }

/-- The install props of `cEnvBase`. -/
def cProps : InstallProps :=
  { version := "1.0.0", bundleID := "rift-Linux-v1.0.0",
    bundleLocation := "/h/.morph/rift-Linux-v1.0.0",
    zipLocation := "/h/.morph/rift-Linux-v1.0.0.zip",
    binLocation := "/h/.morph/rift-Linux-v1.0.0/core" }

/-- C1 witness: the live-port short-circuit at a concrete environment. -/
theorem C1_live_port_short_circuit_witness :
    forceResolveServerOptions { cEnvBase with portInUse := true } [] 7797 [] =
      (.ok (.network "127.0.0.1" 7797), [], [.probePort 7797 true]) :=
  (C1_live_port_short_circuit { cEnvBase with portInUse := true } [] 7797 [] rfl).2.1

/-- C3: with autostart disabled and the port down, `forceResolveServerOptions`
waits: it returns a Network endpoint as soon as some poll sees the port in
use, is still pending when no poll does, never spawns a subprocess nor
downloads nor extracts anything on this path, and the loop's verdict is
unaffected by transient `waitUntilUsed` errors (which are logged and
swallowed). -/
theorem C3_manual_wait (env : Env) (rmFails : List String) (port : Nat) (fs : List String)
    (props : InstallProps)
    (h1 : env.portInUse = false) (ha : env.autostart = false)
    (hp : getDefaultInstallProps env.home env.platform env.arch env.version = .ok props) :
    (true ∈ env.waitPolls.map Prod.fst →
      (forceResolveServerOptions env rmFails port fs).1 = .ok (.network "127.0.0.1" port)) ∧
    (true ∉ env.waitPolls.map Prod.fst →
      (forceResolveServerOptions env rmFails port fs).1 = .pending) ∧
    (forceResolveServerOptions env rmFails port fs).2.2.filter Event.isSpawn = [] ∧
    (forceResolveServerOptions env rmFails port fs).2.2.filter Event.isDownload = [] ∧
    (forceResolveServerOptions env rmFails port fs).2.2.filter Event.isExtract = [] ∧
    (∀ l₁ l₂ : List (Bool × Bool), l₁.map Prod.fst = l₂.map Prod.fst →
      (waitForPortLoop port l₁).1 = (waitForPortLoop port l₂).1) := by
  have htr := tryResolve_noauto env port fs props h1 ha hp
  have hframe := tryResolve_frame env port fs
  rcases htt : tryResolveServerOptions env port fs with ⟨r, fs', t⟩
  rw [htt] at htr hframe
  simp only at htr hframe
  subst htr
  rcases hw : waitForPortLoop port env.waitPolls with ⟨wr, wevs⟩
  have hwf := waitLoop_frame port env.waitPolls
  rw [hw] at hwf
  simp only at hwf
  have hforce : forceResolveServerOptions env rmFails port fs =
      ((match wr with
          | some _ => Res.ok (.network "127.0.0.1" port)
          | none => Res.pending),
        fs', (t ++ [Event.readConfig "autostart"]) ++ wevs) := by
    simp only [forceResolveServerOptions, htt, ha, hw, Bool.false_eq_true, if_false]
    cases wr <;> rfl
  refine ⟨?_, ?_, ?_, ?_, ?_, waitLoop_fst_congr port⟩
  · intro hmem
    obtain ⟨n, hn⟩ := waitLoop_reaches port env.waitPolls hmem
    rw [hw] at hn
    simp only at hn
    subst hn
    simp [hforce]
  · intro hmem
    have hn := waitLoop_pending port env.waitPolls hmem
    rw [hw] at hn
    simp only at hn
    subst hn
    simp [hforce]
  · simp [hforce, List.filter_append, hframe.2.2.2.2.1, hwf.1, Event.isSpawn]
  · simp [hforce, List.filter_append, hframe.2.2.1, hwf.2.1, Event.isDownload]
  · simp [hforce, List.filter_append, hframe.2.2.2.1, hwf.2.2.1, Event.isExtract]

/-- C7: the pruning pass removes only sibling entries that start with
`"rift-"` and differ from the current bundle identifier, never the current
target: the identifier is never a pruning target, and the resolution trace
never contains a removal of the bundle directory.  Removal failures feed back
into nothing: the verdict and resulting filesystem of
`forceResolveServerOptions` are identical for any two sets of failing
removals (the `rm` promises are fire-and-forget, so pruning also cannot block
the return of readiness -- it contributes events only, never state the
resolution reads). -/
theorem C7_prune_safety :
    (∀ entries bid, bid ∉ pruneTargets entries bid) ∧
    (∀ entries bid, ∀ e ∈ pruneTargets entries bid,
      e ∈ entries ∧ e ≠ bid ∧ e.startsWith "rift-" = true) ∧
    (∀ (env : Env) (rmF₁ rmF₂ : List String) (port : Nat) (fs : List String),
      (forceResolveServerOptions env rmF₁ port fs).1 =
        (forceResolveServerOptions env rmF₂ port fs).1 ∧
      (forceResolveServerOptions env rmF₁ port fs).2.1 =
        (forceResolveServerOptions env rmF₂ port fs).2.1) ∧
    (∀ (env : Env) (rmF : List String) (port : Nat) (fs : List String)
        (props : InstallProps) (b : Bool),
      getDefaultInstallProps env.home env.platform env.arch env.version = .ok props →
      Event.rmFile props.bundleLocation b ∉
        (forceResolveServerOptions env rmF port fs).2.2) := by
  refine ⟨fun entries bid => (pruneTargets_spec entries bid).1,
    fun entries bid => (pruneTargets_spec entries bid).2, ?_, ?_⟩
  · intro env rmF₁ rmF₂ port fs
    rcases htt : tryResolveServerOptions env port fs with ⟨r, fs', t⟩
    simp only [forceResolveServerOptions, htt]
    rcases r with e | o
    · exact ⟨rfl, rfl⟩
    rcases o with _ | o
    · by_cases ha : env.autostart
      · simp only [ha, if_pos]
        rcases hp : getDefaultInstallProps env.home env.platform env.arch env.version
          with e | props
        · exact ⟨rfl, rfl⟩
        · exact ⟨(installPhase_rm_invariant env rmF₁ rmF₂ props port fs').1,
            (installPhase_rm_invariant env rmF₁ rmF₂ props port fs').2⟩
      · have ha' : env.autostart = false := by simpa using ha
        simp only [ha', Bool.false_eq_true, if_false]
        refine ⟨?_, ?_⟩ <;> trivial
    · exact ⟨rfl, rfl⟩
  · intro env rmF port fs props b hp
    have hfield := getDefault_fields env.home env.platform env.arch env.version props hp
    rcases htt : tryResolveServerOptions env port fs with ⟨r, fs', t⟩
    have hframe := tryResolve_frame env port fs
    rw [htt] at hframe
    simp only at hframe
    have hnorm : ∀ q b', Event.rmFile q b' ∉ t := hframe.2.2.2.2.2
    simp only [forceResolveServerOptions, htt]
    rcases r with e | o
    · exact fun hmem => hnorm _ _ hmem
    rcases o with _ | o
    · by_cases ha : env.autostart
      · simp only [ha, if_pos, hp]
        have hip := installPhase_no_rm_bundle env rmF props port fs' b hfield.1 hfield.2
        intro hmem
        rcases List.mem_append.mp hmem with h | h
        · rcases List.mem_append.mp h with h | h
          · exact hnorm _ _ h
          · simp at h
        · exact hip h
      · have ha' : env.autostart = false := by simpa using ha
        simp only [ha', Bool.false_eq_true, if_false]
        rcases hw : waitForPortLoop port env.waitPolls with ⟨wr, wevs⟩
        have hwf := waitLoop_frame port env.waitPolls
        rw [hw] at hwf
        cases wr <;>
        · intro hmem
          rcases List.mem_append.mp hmem with h | h
          · rcases List.mem_append.mp h with h | h
            · exact hnorm _ _ h
            · simp at h
          · exact hwf.2.2.2 _ _ h
    · exact fun hmem => hnorm _ _ hmem

/-- C2: with autostart on, no reachable port, no custom binary and no
installed bundle, `forceResolveServerOptions` performs exactly one download
(at `<repo-release-base>/v<version>/<bundleID>.zip`) preceded immediately by
the removal of any stale archive at the destination; it extracts exactly once
on success and not at all on failure; it re-checks (`tryResolveServerOptions`,
hence a second liveness probe) exactly once after a successful download and
not at all after a failed one; and on download failure it terminates with the
download-failed error having spawned nothing -- in particular it never runs
the local build. -/
theorem C2_single_download_cycle (env : Env) (rmFails : List String) (port : Nat)
    (fs : List String) (props : InstallProps)
    (h1 : env.portInUse = false) (h2 : env.autostart = true)
    (hp : getDefaultInstallProps env.home env.platform env.arch env.version = .ok props)
    (hc : ∀ p, env.customRiftPath = some p → fs.contains p = false)
    (hbin : fs.contains props.binLocation = false)
    (hbundle : fs.contains props.bundleLocation = false) :
    (forceResolveServerOptions env rmFails port fs).2.2.filter Event.isDownload =
      [.download (riftReleaseURL props) props.zipLocation env.downloadOk] ∧
    (forceResolveServerOptions env rmFails port fs).2.2.filter Event.isExtract =
      (if env.downloadOk then [.extract props.zipLocation props.bundleLocation] else []) ∧
    ((forceResolveServerOptions env rmFails port fs).2.2.filter Event.isProbe).length =
      (if env.downloadOk then 2 else 1) ∧
    (∃ pre post, (forceResolveServerOptions env rmFails port fs).2.2 =
      pre ++ [.rmFile props.zipLocation (!(rmFails.contains props.zipLocation)),
        .download (riftReleaseURL props) props.zipLocation env.downloadOk] ++ post ∧
      pre.filter Event.isDownload = []) ∧
    (env.downloadOk = false →
      (forceResolveServerOptions env rmFails port fs).1 =
        .err (.downloadFailed props.bundleID) ∧
      (forceResolveServerOptions env rmFails port fs).2.2.filter Event.isSpawn = []) := by
  have ht := tryResolve_none env port fs props h1 hp hc hbin
  have htf := tryResolve_frame env port fs
  rw [ht] at htf
  simp only at htf
  set T0 : List Event := [.probePort port false, .readConfig "riftPath"] ++
    custStatEvents env ++ [.fsStat props.binLocation] with hT0
  have hforce2 : forceResolveServerOptions env rmFails port fs =
      ((installPhase env rmFails props port fs).1,
        (installPhase env rmFails props port fs).2.1,
        (T0 ++ [Event.readConfig "autostart"]) ++
          (installPhase env rmFails props port fs).2.2) := by
    simp only [forceResolveServerOptions, ht, h2, hp, if_pos]
  by_cases hd : env.downloadOk
  · -- successful download
    have hchm : ∃ chevs, chmodPhase env.platform props.bundleLocation = .ok chevs := by
      rcases getDefault_ok_platform _ _ _ _ _ hp with hpl | hpl | hpl <;>
        rw [hpl] <;> exact ⟨_, rfl⟩
    obtain ⟨chevs, hch⟩ := hchm
    have hchf := chmodPhase_frame env.platform props.bundleLocation chevs hch
    set T4 : List Event :=
      ([Event.fsStat props.bundleLocation] ++
        [Event.rmFile props.zipLocation (!(rmFails.contains props.zipLocation))] ++
        [Event.download (riftReleaseURL props) props.zipLocation true] ++
        [Event.extract props.zipLocation props.bundleLocation,
          Event.readDir (morphDirOf env.home)] ++
        pruneEvents env.home env.morphEntries props.bundleID rmFails) ++ chevs with hT4
    have hinst : ∃ fs3, installPhase env rmFails props port fs =
        recheckPhase env port fs3 T4 := by
      simp only [installPhase, hbundle, Bool.false_eq_true, if_false, hd, if_pos, hch]
      exact ⟨_, rfl⟩
    obtain ⟨fs3, hinst⟩ := hinst
    have hrt := (recheckPhase_eq env port fs3 T4).2.2
    have htf2 := tryResolve_frame env port fs3
    have hpf := pruneEvents_frame env.home env.morphEntries props.bundleID rmFails
    refine ⟨?_, ?_, ?_, ?_, ?_⟩
    · rw [hforce2, hinst]
      simp only [hrt]
      simp [hT4, List.filter_append, htf.2.2.1, htf2.2.2.1, hchf.1, hpf.1,
        Event.isDownload, hd]
    · rw [hforce2, hinst]
      simp only [hrt]
      simp [hT4, List.filter_append, htf.2.2.2.1, htf2.2.2.2.1, hchf.2.1, hpf.2.1,
        Event.isExtract, hd]
    · rw [hforce2, hinst]
      simp only [hrt]
      simp [hT4, List.filter_append, List.length_append, htf.2.1, htf2.2.1,
        hchf.2.2.1, hpf.2.2.1, Event.isProbe, hd]
    · refine ⟨(T0 ++ [Event.readConfig "autostart"]) ++ [Event.fsStat props.bundleLocation],
        [Event.extract props.zipLocation props.bundleLocation,
          Event.readDir (morphDirOf env.home)] ++
          pruneEvents env.home env.morphEntries props.bundleID rmFails ++ chevs ++
          (tryResolveServerOptions env port fs3).2.2, ?_, ?_⟩
      · rw [hforce2, hinst]
        simp only [hrt]
        simp [hT4, List.append_assoc, hd]
      · simp [List.filter_append, htf.2.2.1, Event.isDownload]
    · intro h
      rw [h] at hd
      exact absurd hd (by decide)
  · -- failed download
    have hd' : env.downloadOk = false := by simpa using hd
    have hinst : installPhase env rmFails props port fs =
        (.err (.downloadFailed props.bundleID),
          fs.filter (fun p => p != props.zipLocation),
          [Event.fsStat props.bundleLocation] ++
            [Event.rmFile props.zipLocation (!(rmFails.contains props.zipLocation))] ++
            [Event.download (riftReleaseURL props) props.zipLocation false]) := by
      simp only [installPhase, hbundle, Bool.false_eq_true, if_false, hd']
    refine ⟨?_, ?_, ?_, ?_, ?_⟩
    · rw [hforce2, hinst]
      simp [List.filter_append, htf.2.2.1, Event.isDownload, hd']
    · rw [hforce2, hinst]
      simp [List.filter_append, htf.2.2.2.1, Event.isExtract, hd']
    · rw [hforce2, hinst]
      simp [List.filter_append, List.length_append, htf.2.1, Event.isProbe, hd']
    · refine ⟨(T0 ++ [Event.readConfig "autostart"]) ++ [Event.fsStat props.bundleLocation],
        [], ?_, ?_⟩
      · rw [hforce2, hinst]
        simp [List.append_assoc, hd']
      · simp [List.filter_append, htf.2.2.1, Event.isDownload]
    · intro _
      constructor
      · rw [hforce2, hinst]
      · rw [hforce2, hinst]
        simp [List.filter_append, htf.2.2.2.2.1, Event.isSpawn]

/-- C2 witness: a concrete failed download terminates with the
download-failed error after exactly one download attempt at the release
URL. -/
theorem C2_single_download_cycle_witness :
    (forceResolveServerOptions cEnvBase [] 7797 []).1 =
      .err (.downloadFailed "rift-Linux-v1.0.0") ∧
    (forceResolveServerOptions cEnvBase [] 7797 []).2.2.filter Event.isDownload =
      [.download (riftReleaseURL cProps) cProps.zipLocation cEnvBase.downloadOk] := by
  have h := C2_single_download_cycle cEnvBase [] 7797 [] cProps rfl rfl (by decide)
    (fun p _ => rfl) rfl rfl
  exact ⟨(h.2.2.2.2 rfl).1, h.1⟩

/-- C7 witness: the current bundle id is not a pruning target among
rift-siblings, and the resolution verdict ignores a failing removal. -/
theorem C7_prune_safety_witness :
    "rift-Linux-v1.0.0" ∉ pruneTargets ["rift-a", "other", "rift-Linux-v1.0.0"]
      "rift-Linux-v1.0.0" ∧
    (forceResolveServerOptions cEnvBase ["/h/.morph/rift-a"] 7797 []).1 =
      (forceResolveServerOptions cEnvBase [] 7797 []).1 :=
  ⟨C7_prune_safety.1 ["rift-a", "other", "rift-Linux-v1.0.0"] "rift-Linux-v1.0.0",
    (C7_prune_safety.2.2.1 cEnvBase ["/h/.morph/rift-a"] [] 7797 []).1⟩

/-- C3 witness: a fake prober that flips from down to up after one poll
yields a Network endpoint. -/
theorem C3_manual_wait_witness :
    (forceResolveServerOptions
        { cEnvBase with autostart := false, waitPolls := [(false, true), (true, false)] }
        [] 7797 []).1 = .ok (.network "127.0.0.1" 7797) :=
  (C3_manual_wait
      { cEnvBase with autostart := false, waitPolls := [(false, true), (true, false)] }
      [] 7797 [] cProps rfl rfl rfl).1 (by decide)

/-- C5: parsing garbage does yield the bottom value (`null`), but comparing
that bottom against a parsed version is NOT well-defined in the code: the
upgrade check evaluates `localRiftVersion.compare(...)` on `null`, which
throws a `TypeError` (swallowed by the surrounding catch) instead of
comparing strictly-less.  This theorem evaluates the code at the failing
inputs: any digit-free `-v` output (e.g. `"garbage"`) makes
`getLocalRiftVersion` resolve bottom, and the upgrade comparison on bottom is
the `TypeError` outcome, not `offered`/`notOffered`. -/
theorem C5_bottom_compare_throws :
    (∀ s : String, (∀ c ∈ s.toList, c.isDigit = false) → semverCoerce s = none) ∧
    getLocalRiftVersion "" = none ∧
    getLocalRiftVersion "garbage" = none ∧
    (∀ v : Nat × Nat × Nat, upgradeCheck none (some v) = .typeError) ∧
    upgradeCheck (getLocalRiftVersion "garbage") (semverCoerce "2.5.0") = .typeError := by
  refine ⟨fun s h => coerceFirst_none s.toList h, rfl, by decide, fun v => rfl, by decide⟩

/-- C5 witness: the general clauses instantiated at `"garbage"` and
`(2, 5, 0)`. -/
theorem C5_bottom_compare_throws_witness :
    semverCoerce "garbage" = none ∧ upgradeCheck none (some (2, 5, 0)) = .typeError :=
  ⟨C5_bottom_compare_throws.1 "garbage" (by decide),
    C5_bottom_compare_throws.2.2.2.1 (2, 5, 0)⟩

/-- C6: `autoBuild` probes the fixed platform-ordered candidate list in
order; the evaluated candidates are exactly the non-qualifying ones up to the
first qualifying candidate (which `List.find?` designates), so no later
candidate is evaluated after a match; a captured version of exactly `3.10`
satisfies the `>= 3.10.0` requirement; and when no candidate across the whole
list qualifies, `autoBuild` fails with the fatal runtime-not-found error. -/
theorem C6_first_qualifying_interpreter (env : BuildEnv) :
    ((autoBuild env).probed =
      (pythonCommands env.platform).takeWhile (fun c => !candidateOk env.probe c) ++
        (match (pythonCommands env.platform).find? (candidateOk env.probe) with
          | some c => [c] | none => [])) ∧
    (∀ c, (pythonCommands env.platform).find? (candidateOk env.probe) = some c →
      candidateOk env.probe c = true) ∧
    ((pythonCommands env.platform).find? (candidateOk env.probe) = none →
      (autoBuild env).result = .error .runtimeNotFound) ∧
    (∀ (probe2 : String → ProbeResult) (c stdout : String), probe2 c = .output stdout →
      matchPythonVersion stdout = some "3.10" → candidateOk probe2 c = true) := by
  refine ⟨?_, fun c hc => List.find?_some hc, ?_, candidateOk_of_match_310⟩
  · simp [autoBuild, autoBuildSelect_eq]
    rcases (pythonCommands env.platform).find? (candidateOk env.probe) with _ | c
    · simp
    · by_cases hv : env.venvOk <;> by_cases hp : env.pipOk <;> simp [hv, hp]
  · intro h
    simp [autoBuild, autoBuildSelect_eq, h]

/-- C6 witness: on Linux with only `python3` answering (`Python 3.10.0`
exactly), probing evaluates `python3.10` then `python3` and stops. -/
theorem C6_first_qualifying_interpreter_witness :
    (autoBuild
        { platform := .linux, home := "/h", morphDirExists := true,
          probe := fun c => if c = "python3" then .output "Python 3.10.0" else .execFail,
          venvOk := true, pipOk := true }).probed =
      (pythonCommands Platform.linux).takeWhile
          (fun c => !candidateOk (fun c => if c = "python3" then .output "Python 3.10.0"
            else .execFail) c) ++
        (match (pythonCommands Platform.linux).find?
            (candidateOk (fun c => if c = "python3" then .output "Python 3.10.0"
              else .execFail)) with
          | some c => [c] | none => []) :=
  (C6_first_qualifying_interpreter
    { platform := .linux, home := "/h", morphDirExists := true,
      probe := fun c => if c = "python3" then .output "Python 3.10.0" else .execFail,
      venvOk := true, pipOk := true }).1

/-- Concrete successful environment for `autoBuild`. -/
def c4Env : BuildEnv :=
  { platform := .linux, home := "/home/u", morphDirExists := true,
    probe := fun c => if c = "python3.10" then .output "Python 3.10.0" else .execFail,
    venvOk := true, pipOk := true }

/-- C4 counterexample: on a successful run, the Local Builder itself writes
the built binary's path into the `riftPath` configuration (the claim says it
performs no configuration write and leaves it to the caller), and it returns
`undefined` rather than reporting the executable path. -/
theorem C4_counterexample :
    (autoBuild c4Env).result = .ok () ∧
    (autoBuild c4Env).configWrites ≠ [] ∧
    (autoBuild c4Env).configWrites = [("riftPath", "/home/u/.morph/env/bin/rift")] := by
  refine ⟨by decide, by decide, by decide⟩

/-- C4 (amended): on every successful run, `autoBuild` itself performs
exactly one configuration write, storing the built binary's path
`<envPath>rift` under `riftPath`; it returns no value (the caller performs no
write). -/
theorem C4_builder_updates_config (env : BuildEnv)
    (h : (autoBuild env).result = .ok ()) :
    (autoBuild env).configWrites =
      [("riftPath", buildEnvPath env.platform env.home ++ "rift")] := by
  simp only [autoBuild, autoBuildSelect_eq] at h ⊢
  rcases hf : (pythonCommands env.platform).find? (candidateOk env.probe) with _ | c
  · rw [hf] at h; simp at h
  · rw [hf] at h
    by_cases hv : env.venvOk <;> by_cases hp : env.pipOk <;> simp [hv, hp] at h ⊢

/-- C4 witness: the amended claim at the concrete successful environment. -/
theorem C4_builder_updates_config_witness :
    (autoBuild c4Env).configWrites =
      [("riftPath", buildEnvPath c4Env.platform c4Env.home ++ "rift")] :=
  C4_builder_updates_config c4Env (by decide)

/-- C10: the pub/sub registry is a single-slot-per-key table: `sub` replaces
any previously registered subscriber for the key (last writer wins), `pub`
throws `"published to an unawaited key"` when no subscriber is registered,
and otherwise invokes exactly the most recently subscribed function with the
given arguments; other keys are untouched by `sub`. -/
theorem C10_pubsub_single_slot {α β : Type} (r : Registry α β) (key k' : String)
    (f g : List α → β) (args : List α) :
    sub (sub r key f) key g key = some g ∧
    pub (sub (sub r key f) key g) key args = .ok (g args) ∧
    (r key = none → pub r key args = .error "published to an unawaited key") ∧
    (k' ≠ key → sub r key f k' = r k') := by
  refine ⟨by simp [sub], by simp [sub, pub], fun h => by simp [pub, h], fun h => by simp [sub, h]⟩

/-- C10 witness: concrete registry with two successive subscriptions. -/
theorem C10_pubsub_single_slot_witness :
    pub (sub (sub (fun _ => none) "k" (fun _ => (0 : Nat))) "k"
        (fun l => l.length)) "k" [5, 7] = .ok 2 ∧
    pub (fun _ => (none : Option (List Nat → Nat))) "k" [5] =
      .error "published to an unawaited key" :=
  ⟨(C10_pubsub_single_slot (fun _ => none) "k" "j" (fun _ => 0) (fun l => l.length)
      [5, 7]).2.1,
    (C10_pubsub_single_slot (fun _ => none) "k" "j" (fun _ => 0) (fun l => l.length)
      [5]).2.2.1 rfl⟩

/-- C8: `downloadFile` returns `false` without writing the destination (and
without creating the parent directory) whenever the response is not
successful or has no body; otherwise it writes the destination, returns
`true`, emits one increment of `(chunk / content-length) * 100` per received
chunk when the `content-length` header is present, and emits no progress
events when it is absent. -/
theorem C8_downloadFile_contract (res : HttpResponse) :
    ((res.ok = false ∨ res.body = none) →
      downloadFile res =
        { success := false, wroteFile := false, madeParentDir := false,
          progressIncrements := [] }) ∧
    (∀ chunks, res.ok = true → res.body = some chunks →
      (downloadFile res).success = true ∧
      (downloadFile res).wroteFile = true ∧
      (downloadFile res).madeParentDir = true ∧
      (res.contentLength = none → (downloadFile res).progressIncrements = []) ∧
      (∀ t, res.contentLength = some t →
        (downloadFile res).progressIncrements =
          chunks.map fun c => ((c : ℚ) / (t : ℚ)) * 100)) := by
  constructor
  · rintro (h | h) <;> simp [downloadFile, h]
  · intro chunks hok hbody
    refine ⟨?_, ?_, ?_, ?_, ?_⟩ <;> simp [downloadFile, hok, hbody]
    · intro h; simp [h]
    · intro t h; simp [h]

/-- Helper: the four possible `osName` strings. -/
theorem osNameOf_mem (p : Platform) (a : Arch) (os : String)
    (h : osNameOf p a = some os) :
    os = "macOS" ∨ os = "macOS-arm64" ∨ os = "Linux" ∨ os = "Windows" := by
  cases p <;> simp [osNameOf] at h
  · cases a <;> simp_all
  · simp [← h]
  · simp [← h]

/-- Helper: the `osName` string pins down whether the platform is Windows. -/
theorem osNameOf_windows (p : Platform) (a : Arch) (os : String)
    (h : osNameOf p a = some os) : os = "Windows" ↔ p = Platform.win32 := by
  cases p with
  | darwin => cases a <;> simp [osNameOf] at h <;> rw [← h] <;> decide
  | linux => simp [osNameOf] at h; rw [← h]; decide
  | win32 => simp [osNameOf] at h; rw [← h]; decide
  | other s => simp [osNameOf] at h

/-- Helper: the bundle tag `"rift-" ++ os ++ "-v" ++ v` is injective over the
four possible `os` strings. -/
theorem riftTag_inj (os os' v v' : String)
    (hos : os = "macOS" ∨ os = "macOS-arm64" ∨ os = "Linux" ∨ os = "Windows")
    (hos' : os' = "macOS" ∨ os' = "macOS-arm64" ∨ os' = "Linux" ∨ os' = "Windows")
    (h : "rift-" ++ os ++ "-v" ++ v = "rift-" ++ os' ++ "-v" ++ v') :
    os = os' ∧ v = v' := by
  rcases hos with rfl | rfl | rfl | rfl <;> rcases hos' with rfl | rfl | rfl | rfl <;>
    first
      | exact ⟨rfl, strCancel _ _ _ h⟩
      | exact absurd h (strMismatch _ _ 12 (by decide) (by decide) (by decide) _ _)

/-- C9: the install-target computation is pure and deterministic -- identical
`(home, platform, arch, version)` inputs give identical outputs; the bundle
identifier is a function of exactly `(platform, arch, version)` (the home
directory does not enter it); and, for a fixed home directory, the bundle
identifier determines every other field, so equal identifiers denote the same
on-disk artifact. -/
theorem C9_install_props_pure :
    (∀ (h₁ h₂ : String) (p₁ p₂ : Platform) (a₁ a₂ : Arch) (v₁ v₂ : String),
      h₁ = h₂ → p₁ = p₂ → a₁ = a₂ → v₁ = v₂ →
      getDefaultInstallProps h₁ p₁ a₁ v₁ = getDefaultInstallProps h₂ p₂ a₂ v₂) ∧
    (∀ (h h' : String) (p : Platform) (a : Arch) (v : String) (pr pr' : InstallProps),
      getDefaultInstallProps h p a v = .ok pr →
      getDefaultInstallProps h' p a v = .ok pr' → pr.bundleID = pr'.bundleID) ∧
    (∀ (home : String) (p p' : Platform) (a a' : Arch) (v v' : String)
        (pr pr' : InstallProps),
      getDefaultInstallProps home p a v = .ok pr →
      getDefaultInstallProps home p' a' v' = .ok pr' →
      pr.bundleID = pr'.bundleID → pr = pr') := by
  refine ⟨?_, ?_, ?_⟩
  · rintro h₁ h₂ p₁ p₂ a₁ a₂ v₁ v₂ rfl rfl rfl rfl; rfl
  · intro h h' p a v pr pr' h1 h2
    simp only [getDefaultInstallProps] at h1 h2
    rcases hos : osNameOf p a with _ | os
    · rw [hos] at h1; simp at h1
    · rw [hos] at h1 h2
      simp only [Except.ok.injEq] at h1 h2
      rw [← h1, ← h2]
  · intro home p p' a a' v v' pr pr' h1 h2 hb
    simp only [getDefaultInstallProps] at h1 h2
    rcases hos : osNameOf p a with _ | os
    · rw [hos] at h1; simp at h1
    rcases hos' : osNameOf p' a' with _ | os'
    · rw [hos'] at h2; simp at h2
    rw [hos] at h1
    rw [hos'] at h2
    simp only [Except.ok.injEq] at h1 h2
    subst h1
    subst h2
    simp only [] at hb
    obtain ⟨hoss, hvv⟩ := riftTag_inj os os' v v'
      (osNameOf_mem p a os hos) (osNameOf_mem p' a' os' hos') hb
    have hcore : coreNameOf p = coreNameOf p' := by
      have hw := osNameOf_windows p a os hos
      have hw' := osNameOf_windows p' a' os' hos'
      rw [hoss] at hw
      by_cases hwin : os' = "Windows"
      · rw [hw.mp hwin, hw'.mp hwin]
      · have hp1 : ¬p = Platform.win32 := fun hc => hwin (hw.mpr hc)
        have hp2 : ¬p' = Platform.win32 := fun hc => hwin (hw'.mpr hc)
        cases p <;> cases p' <;> simp_all [coreNameOf]
    subst hoss
    subst hvv
    rw [hcore]

/-- C9 witness: the purity clauses at concrete inputs. -/
theorem C9_install_props_pure_witness :
    getDefaultInstallProps "/h" Platform.darwin Arch.arm64 "1.2.3" =
      getDefaultInstallProps "/h" Platform.darwin Arch.arm64 "1.2.3" ∧
    (∀ pr pr' : InstallProps,
      getDefaultInstallProps "/a" Platform.linux Arch.otherArch "1.0.0" = .ok pr →
      getDefaultInstallProps "/b" Platform.linux Arch.otherArch "1.0.0" = .ok pr' →
      pr.bundleID = pr'.bundleID) :=
  ⟨C9_install_props_pure.1 "/h" "/h" Platform.darwin Platform.darwin Arch.arm64 Arch.arm64
      "1.2.3" "1.2.3" rfl rfl rfl rfl,
    fun pr pr' h1 h2 => C9_install_props_pure.2.1 "/a" "/b" Platform.linux Arch.otherArch
      "1.0.0" pr pr' h1 h2⟩

/-- C8 witness: failure leaves nothing behind; success with a known
content length of 200 over chunks 50/150 reports 25% then 75%. -/
theorem C8_downloadFile_contract_witness :
    downloadFile { ok := false, body := some [10], contentLength := some 10 } =
      { success := false, wroteFile := false, madeParentDir := false,
        progressIncrements := [] } ∧
    (downloadFile { ok := true, body := some [50, 150], contentLength := some 200
      }).progressIncrements = [50, 150].map (fun c => ((c : ℚ) / (200 : ℚ)) * 100) :=
  ⟨(C8_downloadFile_contract _).1 (Or.inl rfl),
    ((C8_downloadFile_contract _).2 [50, 150] rfl rfl).2.2.2.2 200 rfl⟩

end Rift
